import Mathlib

/-!
Verification of the core of the `video-downloader` repository: a shallow
embedding of the order-resolution, path-derivation, pipeline-execution and
view-model bridging logic, together with theorems settling the frozen claims.

Python strings are modelled as Lean `String`s; where character-level analysis
is needed (prefix matching, sanitization) we work on `String.data : List Char`.
Python `str.lower()` is modelled by `Char.toLower` (ASCII case folding; the
prefixes the code matches on are all ASCII, so the distinction is irrelevant
to the matched branches).  The filesystem is modelled as a predicate
`String → Bool` (does a path exist), and external effects (subprocess calls,
translation services) as oracle parameters.
-/

namespace VideoDownloader

/-- Python's `s.startswith(p)` on explicit character lists: `pyStartsWith p l`
is true when `p` is a leading segment of `l`. -/
def pyStartsWith : List Char → List Char → Bool
  | [], _ => true
  | _ :: _, [] => false
  | p :: ps, c :: cs => p == c && pyStartsWith ps cs

/-- Python `s.startswith(p)` on `String`s (defined through the character
lists so that it computes by evaluation). -/
def strStartsWith (s p : String) : Bool := pyStartsWith p.data s.data

/-- Python `s.endswith(p)` on `String`s. -/
def strEndsWith (s p : String) : Bool :=
  pyStartsWith p.data.reverse s.data.reverse

/-- The whitespace class of Python's `str.strip()` / regex `\s` (ASCII part). -/
def pyIsSpace (c : Char) : Bool :=
  c == ' ' || c == '\t' || c == '\n' || c == '\r' || c == '\x0b' || c == '\x0c'

/-- Python's `str.strip()`: remove leading and trailing whitespace. -/
def pyStrip (s : String) : String :=
  ⟨((s.data.dropWhile pyIsSpace).reverse.dropWhile pyIsSpace).reverse⟩

/-- POSIX `os.path.join` for the two-argument form used by the code. -/
def osPathJoin (d f : String) : String :=
  if strStartsWith f "/" then f
  else if d = "" then f
  else if strEndsWith d "/" then d ++ f
  else d ++ "/" ++ f

/-! ### constants.py -/

def SOURCE_LANG_DEFAULT : String := "en"
def TARGET_LANG_DEFAULT : String := "ru"
def SUB_LANG_DEFAULT : String := "en"
def SUB_FORMAT_DEFAULT : String := "vtt"
def VIDEO_FORMAT_EXT_DEFAULT : String := "mp4"
def YT_DLP_FORMAT_DEFAULT : String :=
  "bestvideo[ext=mp4]+bestaudio[ext=m4a]/best[ext=mp4]/best"
def ORIGINAL_VOLUME_DEFAULT : String := "0.0"
def ADDED_VOLUME_DEFAULT : String := "1.0"
def MERGED_AUDIO_CODEC_DEFAULT : String := "aac"
def META_SUFFIX : String := "meta"
def META_EXT_DEFAULT : String := "txt"
def AUDIO_MIX_SUFFIX : String := "mixed"
def THUMBNAIL_EXT_DEFAULT : String := "jpg"

/-! ### model/processing_context.py -/

/-- The `ProcessingContext` dataclass: inputs, settings snapshot, and the
mutable fields populated by commands.  `Optional[str]` fields are `Option
String`; dataclass defaults are the structure's field defaults. -/
structure ProcessingContext where
  url : String
  output_dir : String
  yandex_audio : Option String := none
  source_lang : String := SOURCE_LANG_DEFAULT
  target_lang : String := TARGET_LANG_DEFAULT
  subtitle_lang : String := SUB_LANG_DEFAULT
  subtitle_format : String := SUB_FORMAT_DEFAULT
  video_format_ext : String := VIDEO_FORMAT_EXT_DEFAULT
  yt_dlp_format : String := YT_DLP_FORMAT_DEFAULT
  original_volume : String := ORIGINAL_VOLUME_DEFAULT
  added_volume : String := ADDED_VOLUME_DEFAULT
  merged_audio_codec : String := MERGED_AUDIO_CODEC_DEFAULT
  base : Option String := none
  title : Option String := none
  description : Option String := none
  tags : List String := []
  video_path : Option String := none
  subtitle_path : Option String := none
  translated_subtitle_path : Option String := none
  metadata_path : Option String := none
  translated_metadata_path : Option String := none
  merged_video_path : Option String := none
  thumbnail_path : Option String := none
deriving Repr, DecidableEq

/-- Python truthiness of an `Optional[str]`: `None` and `""` are falsy. -/
def optStrFalsy : Option String → Bool
  | none => true
  | some s => s == ""

/-- Suffix normalization inside `ProcessingContext._get_path`:
`safe_suffix = suffix`, prepending `"."` when `suffix` is non-empty and does
not already start with `"."`. -/
def normSuffix (suffix : String) : String :=
  if suffix ≠ "" ∧ ¬ strStartsWith suffix "." then "." ++ suffix else suffix

/-- Extension normalization inside `ProcessingContext._get_path`:
`safe_ext = ext.strip()`, prepending `"."` when non-empty and not already
dot-led (the `elif not safe_ext` branch re-assigns `""`, a no-op). -/
def normExt (ext : String) : String :=
  let stripped := pyStrip ext
  if stripped ≠ "" ∧ ¬ strStartsWith stripped "." then "." ++ stripped
  else stripped

/-- `ProcessingContext._get_path(suffix, ext)`.  `if not self.base` covers
both `None` and the empty string. -/
def ProcessingContext.getPath (ctx : ProcessingContext) (suffix ext : String) :
    Option String :=
  match ctx.base with
  | none => none
  | some b =>
    if b = "" then none
    else
      let safe_suffix := normSuffix suffix
      let safe_ext := normExt ext
      let filename :=
        if strEndsWith safe_suffix safe_ext ∧ safe_ext ≠ "" then b ++ safe_suffix
        else b ++ safe_suffix ++ safe_ext
      some (osPathJoin ctx.output_dir filename)

/-- `ProcessingContext.get_metadata_filepath(lang)`: suffix `.meta`, plus
`.{lang}` when `lang` is truthy, with the fixed text extension. -/
def ProcessingContext.get_metadata_filepath (ctx : ProcessingContext)
    (lang : Option String) : Option String :=
  let suffix :=
    match lang with
    | some l => if l = "" then "." ++ META_SUFFIX else "." ++ META_SUFFIX ++ "." ++ l
    | none => "." ++ META_SUFFIX
  ctx.getPath suffix META_EXT_DEFAULT

/-- `ProcessingContext.get_subtitle_filepath(lang)`. -/
def ProcessingContext.get_subtitle_filepath (ctx : ProcessingContext)
    (lang : String) : Option String :=
  if lang = "" then none
  else ctx.getPath ("." ++ lang) ctx.subtitle_format

/-- `ProcessingContext.get_video_filepath()`. -/
def ProcessingContext.get_video_filepath (ctx : ProcessingContext) :
    Option String :=
  ctx.getPath "" ctx.video_format_ext

/-- `ProcessingContext.get_merged_video_filepath()`. -/
def ProcessingContext.get_merged_video_filepath (ctx : ProcessingContext) :
    Option String :=
  ctx.getPath ("." ++ AUDIO_MIX_SUFFIX) ctx.video_format_ext

/-- `ProcessingContext.get_thumbnail_filepath()`. -/
def ProcessingContext.get_thumbnail_filepath (ctx : ProcessingContext) :
    Option String :=
  ctx.getPath "" THUMBNAIL_EXT_DEFAULT

/-! ### model/video_service.py — registry and order resolution -/

/-- Keys of `VideoService.COMMAND_MAPPING`. -/
def COMMAND_KEYS : List String := ["md", "dv", "ds", "dt", "da", "tm"]

/-- `VideoService.METADATA_DEPENDENCIES`. -/
def METADATA_DEPENDENCIES : List String := ["dv", "ds", "dt", "da", "tm"]

/-- `VideoService.TOOL_DEPENDENCIES` with the `.get(action, [])` default. -/
def TOOL_DEPENDENCIES (action : String) : List String :=
  if action = "md" then ["yt-dlp"]
  else if action = "dv" then ["yt-dlp", "ffmpeg"]
  else if action = "ds" then ["yt-dlp"]
  else if action = "dt" then []
  else if action = "da" then ["ffmpeg"]
  else if action = "tm" then []
  else []

/-- The `required_tools` set built by `VideoService._check_tool_availability`. -/
def requiredTools (actions : List String) : List String :=
  ((actions.map TOOL_DEPENDENCIES).flatten).dedup

/-- `VideoService._check_tool_availability`: true when every required tool
resolves; `avail` models `find_executable` succeeding for a tool name. -/
def checkToolAvailability (avail : String → Bool) (actions : List String) : Bool :=
  (requiredTools actions).all avail

/-- Step 3 of `VideoService.perform_actions` (lines 131-151): the
`ordered_actions` list.  `list.remove` is `List.erase` (first occurrence),
`insert(0, x)` is cons. -/
def resolveOrder (actions : List String) : List String :=
  if ∃ a ∈ actions, a ∈ METADATA_DEPENDENCIES then
    if "md" ∉ actions then "md" :: actions
    else if actions.indexOf "md" ≠ 0 then "md" :: actions.erase "md"
    else actions
  else actions

/-! ### model/video_service.py — execution loop -/

/-- The exception classes `perform_actions` catches (all of them abort the
chain identically). -/
inductive PyError
  | fileNotFound (msg : String)
  | calledProcessError (returncode : Int)
  | valueError (msg : String)
  | ioError (msg : String)
  | unexpected (name msg : String)
deriving Repr, DecidableEq

/-- A step-execution oracle: what `command_instance.execute(context)` does for
each action key — either a new context (the command mutates `context` in
place) or a raised exception.  Commands perform I/O, so their behaviour is a
parameter of the embedding; the loop structure below is from the source. -/
def StepEffect := String → ProcessingContext → Except PyError ProcessingContext

/-- Outcome of the `for action_key in ordered_actions` loop of
`perform_actions` (lines 154-213): the final `success` flag, the list of
action keys whose `execute` was actually invoked, and the final context. -/
structure LoopResult where
  success : Bool
  executed : List String
  ctx : ProcessingContext
deriving Repr, DecidableEq

/-- Step 4 of `VideoService.perform_actions`: sequential execution with
`continue` on unknown keys, a fatal precondition check (`base` required for
identity-dependent actions), and `break` on any caught exception. -/
def execActions (se : StepEffect) : List String → ProcessingContext → LoopResult
  | [], ctx => ⟨true, [], ctx⟩
  | a :: rest, ctx =>
    if a ∉ COMMAND_KEYS then
      -- `command_class` is None: log "[WARN] Unknown action key, skipping." and continue
      execActions se rest ctx
    else if a ∈ METADATA_DEPENDENCIES ∧ ctx.base = none then
      -- fatal precondition failure: success = False, break
      ⟨false, [], ctx⟩
    else
      match se a ctx with
      | .ok ctx' =>
        let r := execActions se rest ctx'
        ⟨r.success, a :: r.executed, r.ctx⟩
      | .error _ => ⟨false, [a], ctx⟩

/-- The settings dictionary handed to `perform_actions` and unpacked into the
`ProcessingContext` constructor. -/
structure Settings where
  source_lang : String := SOURCE_LANG_DEFAULT
  target_lang : String := TARGET_LANG_DEFAULT
  subtitle_lang : String := SUB_LANG_DEFAULT
  subtitle_format : String := SUB_FORMAT_DEFAULT
  video_format_ext : String := VIDEO_FORMAT_EXT_DEFAULT
  yt_dlp_format : String := YT_DLP_FORMAT_DEFAULT
  original_volume : String := ORIGINAL_VOLUME_DEFAULT
  added_volume : String := ADDED_VOLUME_DEFAULT
  merged_audio_codec : String := MERGED_AUDIO_CODEC_DEFAULT
deriving Repr, DecidableEq

/-- `ProcessingContext(url=url, yandex_audio=yandex_audio,
output_dir=output_dir, **settings)` — step 2 of `perform_actions`. -/
def mkContext (url : String) (yandex_audio : Option String)
    (output_dir : String) (s : Settings) : ProcessingContext :=
  { url := url
    output_dir := output_dir
    yandex_audio := yandex_audio
    source_lang := s.source_lang
    target_lang := s.target_lang
    subtitle_lang := s.subtitle_lang
    subtitle_format := s.subtitle_format
    video_format_ext := s.video_format_ext
    yt_dlp_format := s.yt_dlp_format
    original_volume := s.original_volume
    added_volume := s.added_volume
    merged_audio_codec := s.merged_audio_codec }

/-- Observable outcome of `VideoService.perform_actions`: the returned
boolean, the actions whose commands ran, and the context (`none` when the
run aborted before the `ProcessingContext` was constructed). -/
structure RunResult where
  success : Bool
  executed : List String
  ctx : Option ProcessingContext
deriving Repr, DecidableEq

/-- `VideoService.perform_actions`: tool preflight, context construction,
order resolution, sequential execution. -/
def performActions (avail : String → Bool) (se : StepEffect) (url : String)
    (yandex_audio : Option String) (actions : List String)
    (output_dir : String) (settings : Settings) : RunResult :=
  if ¬ checkToolAvailability avail actions then ⟨false, [], none⟩
  else
    let context := mkContext url yandex_audio output_dir settings
    let ordered := resolveOrder actions
    let r := execActions se ordered context
    ⟨r.success, r.executed, some r.ctx⟩

/-! ### viewmodel/video_viewmodel.py — events and log severity -/

/-- A message dictionary placed on `self.message_queue`:
`{"type": ..., "level": ..., "data": ..., "origin": ...}`. -/
structure Event where
  type : String
  level : String
  data : List Char
  origin : String
deriving Repr, DecidableEq

/-- The log event built by `VideoViewModel._log_message_to_queue`: severity is
selected by prefix-matching `msg.lower()`, and in the TRIM branch the literal
`"[TRIM]"` prefix (case-sensitive match on the original message) is removed
together with following whitespace (`lstrip`). -/
def mkLogEvent (msg : String) (origin : String) : Event :=
  let lower := msg.data.map Char.toLower
  if pyStartsWith "[error]".data lower || pyStartsWith "✖".data lower ||
     pyStartsWith "❌".data lower then
    ⟨"log", "ERROR", msg.data, origin⟩
  else if pyStartsWith "[warn]".data lower then
    ⟨"log", "WARN", msg.data, origin⟩
  else if pyStartsWith "▶".data lower || pyStartsWith "✔".data lower ||
          pyStartsWith "🎉".data lower || pyStartsWith "✅".data lower ||
          pyStartsWith "[info]".data lower then
    ⟨"log", "INFO", msg.data, origin⟩
  else if pyStartsWith "[debug]".data lower then
    ⟨"log", "DEBUG", msg.data, origin⟩
  else if pyStartsWith "[trim]".data lower then
    ⟨"log", "TRIM",
      (if pyStartsWith "[TRIM]".data msg.data then
        (msg.data.drop 6).dropWhile pyIsSpace
      else msg.data), origin⟩
  else
    ⟨"log", "INFO", msg.data, origin⟩

/-- `VideoViewModel._log_message_to_queue`: appends exactly one log event to
the thread-safe queue (and then notifies listeners, which touches no queue
state). -/
def logMessageToQueue (queue : List Event) (msg : String) (origin : String) :
    List Event :=
  queue ++ [mkLogEvent msg origin]

/-! ### viewmodel/video_viewmodel.py — busy flags and run submission -/

/-- The ViewModel state observable by `run`/`run_trim`: the two busy flags,
whether each origin's worker thread object exists and is alive, the message
queue, and a count of workers spawned (`threading.Thread(...).start()`
calls). -/
structure ViewModelState where
  is_url_processing : Bool := false
  url_thread_alive : Bool := false
  is_trimming : Bool := false
  trim_thread_alive : Bool := false
  queue : List Event := []
  workers_spawned : Nat := 0
deriving Repr, DecidableEq

/-- `VideoViewModel.run` up to (and including) spawning the worker thread:
the guards reject when the same-origin task is running (`_is_url_processing`
and its thread alive) or when a trim task is running; otherwise the flag is
set, a "running" status event is queued, and exactly one worker starts. -/
def VideoViewModel.run (s : ViewModelState) : ViewModelState :=
  if s.is_url_processing = true ∧ s.url_thread_alive = true then
    { s with
        queue := logMessageToQueue s.queue
          "[WARN] Задача обработки URL уже выполняется." "url" }
  else if s.is_trimming = true ∧ s.trim_thread_alive = true then
    { s with
        queue := logMessageToQueue s.queue
          "[WARN] Дождитесь завершения обрезки перед запуском обработки URL." "url" }
  else
    { s with
        is_url_processing := true
        queue := s.queue ++ [⟨"status", "INFO", "running".data, "url"⟩]
        workers_spawned := s.workers_spawned + 1
        url_thread_alive := true }

/-- `VideoViewModel.run_trim` up to spawning the trim worker thread. -/
def VideoViewModel.run_trim (s : ViewModelState) : ViewModelState :=
  if s.is_trimming = true ∧ s.trim_thread_alive = true then
    { s with
        queue := logMessageToQueue s.queue
          "[WARN] Задача обрезки уже выполняется." "trim" }
  else if s.is_url_processing = true ∧ s.url_thread_alive = true then
    { s with
        queue := logMessageToQueue s.queue
          "[WARN] Дождитесь завершения обработки URL перед запуском обрезки." "trim" }
  else
    { s with
        is_trimming := true
        queue := s.queue ++ [⟨"status", "INFO", "running".data, "trim"⟩]
        workers_spawned := s.workers_spawned + 1
        trim_thread_alive := true }

/-! ### viewmodel/video_viewmodel.py — worker completion -/

/-- Primitive observable operations performed by a worker function, in
program order. -/
inductive TaskOp
  | enqueueEvent (e : Event)
  | clearBusyFlag (origin : String)
deriving Repr, DecidableEq

/-- The `task` closure inside `VideoViewModel.run`: the outcome of
`self.service.perform_actions(...)` is either a boolean or an escaping
exception `(type-name, message, traceback-text)`.  The `finally` block
enqueues the terminal status event and then resets `_is_url_processing`. -/
def urlWorkerTrace (outcome : Except (String × String × String) Bool) :
    List TaskOp :=
  match outcome with
  | .ok success =>
    [.enqueueEvent ⟨"status", if success then "INFO" else "ERROR",
        (if success then "finished" else "error").data, "url"⟩,
     .clearBusyFlag "url"]
  | .error (name, m, tb) =>
    [.enqueueEvent (mkLogEvent
        ("[ERROR] Критическая ошибка во время выполнения VideoService: " ++
          name ++ " - " ++ m) "url"),
     .enqueueEvent (mkLogEvent ("[DEBUG] Traceback:\n" ++ tb) "url"),
     .enqueueEvent ⟨"status", "ERROR", "error".data, "url"⟩,
     .clearBusyFlag "url"]

/-- The `trim_task` closure inside `VideoViewModel.run_trim`.  On an escaping
exception the error is logged; the traceback is additionally logged only when
the exception is not one of the categorized classes (`FileNotFoundError`,
`ValueError`, `CalledProcessError`) — `categorized` records that test. -/
def trimWorkerTrace (outcome : Except (Bool × String × String × String) Unit) :
    List TaskOp :=
  match outcome with
  | .ok _ =>
    [.enqueueEvent ⟨"status", "INFO", "finished".data, "trim"⟩,
     .clearBusyFlag "trim"]
  | .error (categorized, name, m, tb) =>
    .enqueueEvent (mkLogEvent
        ("[ERROR] Ошибка во время выполнения обрезки: " ++ name ++ " - " ++ m)
        "trim") ::
    (if categorized then []
     else [.enqueueEvent (mkLogEvent ("[DEBUG] Traceback:\n" ++ tb) "trim")]) ++
    [.enqueueEvent ⟨"status", "ERROR", "error".data, "trim"⟩,
     .clearBusyFlag "trim"]

/-- Is this operation the enqueueing of a terminal status event? -/
def isTerminalStatus : TaskOp → Bool
  | .enqueueEvent e =>
      e.type == "status" && (e.data == "finished".data || e.data == "error".data)
  | .clearBusyFlag _ => false

/-- Is this operation a busy-flag reset? -/
def isClearFlag : TaskOp → Bool
  | .enqueueEvent _ => false
  | .clearBusyFlag _ => true

/-! ### commands/download_metadata.py — base-name sanitization -/

/-- The character class of `re.sub(r'[<>:"/\\|?*]', '_', raw_base)`. -/
def FORBIDDEN_CHARS : List Char := ['<', '>', ':', '"', '/', '\\', '|', '?', '*']

/-- `re.sub(r'[<>:"/\\|?*]', '_', l)`: each forbidden character becomes one
underscore. -/
def replaceForbidden (l : List Char) : List Char :=
  l.map (fun c => if c ∈ FORBIDDEN_CHARS then '_' else c)

/-- `re.sub(r'\s+', '_', l)`: every maximal run of whitespace becomes a single
underscore.  The flag records whether the previous character was whitespace
(i.e. we are inside a run already replaced). -/
def collapseSpacesAux : Bool → List Char → List Char
  | _, [] => []
  | prevSpace, c :: rest =>
    if pyIsSpace c then
      if prevSpace then collapseSpacesAux true rest
      else '_' :: collapseSpacesAux true rest
    else c :: collapseSpacesAux false rest

def collapseSpaces (l : List Char) : List Char := collapseSpacesAux false l

/-- The base-name cleaning block of `DownloadMetadata.execute` (lines 34-44):
forbidden characters to `_`, whitespace runs to `_`, truncate to 100
characters, fall back to `"video"` when empty. -/
def sanitizeBase (raw : String) : String :=
  let s1 := replaceForbidden raw.data
  let s2 := collapseSpaces s1
  let s3 := s2.take 100
  if s3 = [] then "video" else ⟨s3⟩

/-! ### command execution models

Each command's `execute` is modelled as a function from the filesystem
(`fs : String → Bool`, path existence), its external-interaction oracles and
the context to a `CommandResult`.  The control flow up to the point where the
command would start doing real work (invoking external tools, translating,
writing files) is taken from the source; the remaining tail of each command
is abstracted by a `proceed` oracle, except for `DownloadMetadata`, whose
main path is modelled in full. -/

/-- Result of one command execution: how many times an external tool was
invoked (the External Tool Gateway counter), the mutated context, and
`none` for a normal return or `some e` for a raised exception. -/
structure CommandResult where
  toolInvocations : Nat
  ctx : ProcessingContext
  outcome : Option PyError
deriving Repr, DecidableEq

/-- The values `data.get('id', '')`, `data.get('title', 'untitled')`,
`data.get('description', '')`, `data.get('tags', [])` extracted from the JSON
produced by the yt-dlp metadata call. -/
structure MetaFetch where
  id : String := ""
  title : String := "untitled"
  description : String := ""
  tags : List String := []
deriving Repr, DecidableEq

/-- `DownloadMetadata.execute` ('md').  `toolAvail` models
`get_tool_path('yt-dlp')` succeeding; `fetch` is the outcome of the
`subprocess.check_output` + `json.loads` call (one tool invocation, made
unconditionally — this command never checks whether its artifact already
exists); `writeOk` is the outcome of writing the metadata file. -/
def downloadMetadataExecute (toolAvail : Bool) (fetch : Except PyError MetaFetch)
    (writeOk : Bool) (ctx : ProcessingContext) : CommandResult :=
  if ¬ toolAvail then
    ⟨0, ctx, some (.fileNotFound "yt-dlp")⟩
  else
    match fetch with
    | .error e => ⟨1, ctx, some e⟩
    | .ok data =>
      let raw_base := if data.id ≠ "" then data.id else data.title
      let safe_base := sanitizeBase raw_base
      let ctx1 := { ctx with
        base := some safe_base
        title := some data.title
        description := some data.description
        tags := data.tags }
      match ctx1.get_metadata_filepath none with
      | none => ⟨1, ctx1, some (.valueError
          "Metadata file path could not be determined (base name missing).")⟩
      | some meta_path =>
        let ctx2 := { ctx1 with metadata_path := some meta_path }
        if writeOk then ⟨1, ctx2, none⟩
        else ⟨1, ctx2, some (.ioError meta_path)⟩

/-- `DownloadVideo.execute` ('dv') up to the existence check on the expected
video path (lines 12-41); the actual download is `proceed`. -/
def downloadVideoExecute (fs : String → Bool)
    (proceed : ProcessingContext → CommandResult) (ctx : ProcessingContext) :
    CommandResult :=
  if optStrFalsy ctx.base then
    ⟨0, ctx, some (.valueError "Base filename not set in context before downloading video.")⟩
  else if ctx.yt_dlp_format = "" then
    ⟨0, ctx, some (.valueError "yt-dlp download format is required.")⟩
  else if ctx.video_format_ext = "" then
    ⟨0, ctx, some (.valueError "Video output format extension is required.")⟩
  else
    match ctx.get_video_filepath with
    | none => ⟨0, ctx, some (.valueError "Could not determine video file path.")⟩
    | some expected_video_path =>
      if fs expected_video_path then
        ⟨0, { ctx with video_path := some expected_video_path }, none⟩
      else proceed ctx

/-- `DownloadSubtitles.execute` ('ds') up to the existence check on the
expected subtitle path; the actual download is `proceed`. -/
def downloadSubtitlesExecute (fs : String → Bool)
    (proceed : ProcessingContext → CommandResult) (ctx : ProcessingContext) :
    CommandResult :=
  if optStrFalsy ctx.base then
    ⟨0, ctx, some (.valueError "Base filename not set in context.")⟩
  else if ctx.subtitle_lang = "" then
    ⟨0, ctx, some (.valueError "Subtitle download language is required.")⟩
  else if ctx.subtitle_format = "" then
    ⟨0, ctx, some (.valueError "Subtitle format is required.")⟩
  else
    match ctx.get_subtitle_filepath ctx.subtitle_lang with
    | none => ⟨0, ctx, some (.valueError "Could not determine subtitle file path.")⟩
    | some expected_sub_path =>
      if fs expected_sub_path then
        ⟨0, { ctx with subtitle_path := some expected_sub_path }, none⟩
      else proceed ctx

/-- `MergeAudio.execute` ('da') up to the existence check on the merged
output path.  `parseFloatOk` models Python `float(...)` succeeding on the
volume strings. -/
def mergeAudioExecute (fs : String → Bool) (parseFloatOk : String → Bool)
    (proceed : ProcessingContext → CommandResult) (ctx : ProcessingContext) :
    CommandResult :=
  if optStrFalsy ctx.video_path then
    ⟨0, ctx, some (.valueError "Video path is missing in context for audio merge.")⟩
  else if optStrFalsy ctx.yandex_audio then
    ⟨0, ctx, some (.valueError "Yandex audio path is missing in context for audio merge.")⟩
  else if optStrFalsy ctx.base then
    ⟨0, ctx, some (.valueError "Base filename not set in context for audio merge.")⟩
  else if ¬ (parseFloatOk ctx.original_volume ∧ parseFloatOk ctx.added_volume) then
    ⟨0, ctx, some (.valueError "Invalid volume setting provided.")⟩
  else if ctx.merged_audio_codec = "" then
    ⟨0, ctx, some (.valueError "Merged audio codec is required.")⟩
  else
    match ctx.get_merged_video_filepath with
    | none => ⟨0, ctx, some (.valueError "Could not determine merged video output path.")⟩
    | some output_path =>
      if ¬ fs (ctx.video_path.getD "") then
        ⟨0, ctx, some (.fileNotFound (ctx.video_path.getD ""))⟩
      else if ¬ fs (ctx.yandex_audio.getD "") then
        ⟨0, ctx, some (.fileNotFound (ctx.yandex_audio.getD ""))⟩
      else if fs output_path then
        ⟨0, { ctx with merged_video_path := some output_path }, none⟩
      else proceed ctx

/-- `TranslateMetadata.execute` ('tm') up to the existence check on the
translated-metadata path. -/
def translateMetadataExecute (fs : String → Bool)
    (proceed : ProcessingContext → CommandResult) (ctx : ProcessingContext) :
    CommandResult :=
  if optStrFalsy ctx.base then ⟨0, ctx, none⟩
  else if optStrFalsy ctx.title ∧ optStrFalsy ctx.description ∧ ctx.tags = [] then
    ⟨0, ctx, none⟩
  else if ctx.source_lang = "" ∨ ctx.target_lang = "" then
    ⟨0, ctx, some (.valueError "Source and Target languages are required for translation.")⟩
  else if ctx.source_lang = ctx.target_lang then ⟨0, ctx, none⟩
  else
    match ctx.get_metadata_filepath (some ctx.target_lang) with
    | none => ⟨0, ctx, some (.valueError "Could not determine target metadata file path.")⟩
    | some target_path =>
      if fs target_path then
        ⟨0, { ctx with translated_metadata_path := some target_path }, none⟩
      else proceed ctx

/-- `TranslateSubtitles.execute` ('dt') up to the existence check on the
translated-subtitle path. -/
def translateSubtitlesExecute (fs : String → Bool)
    (proceed : ProcessingContext → CommandResult) (ctx : ProcessingContext) :
    CommandResult :=
  if optStrFalsy ctx.subtitle_path then ⟨0, ctx, none⟩
  else if ¬ fs (ctx.subtitle_path.getD "") then
    ⟨0, ctx, some (.fileNotFound (ctx.subtitle_path.getD ""))⟩
  else if optStrFalsy ctx.base then
    ⟨0, ctx, some (.valueError "Base filename not set in context for subtitle translation.")⟩
  else if ctx.source_lang = "" ∨ ctx.target_lang = "" then
    ⟨0, ctx, some (.valueError "Source and Target languages are required for subtitle translation.")⟩
  else if ctx.subtitle_format = "" then
    ⟨0, ctx, some (.valueError "Subtitle format is required for saving translated subtitles.")⟩
  else if ctx.source_lang = ctx.target_lang then ⟨0, ctx, none⟩
  else
    match ctx.get_subtitle_filepath ctx.target_lang with
    | none => ⟨0, ctx, some (.valueError "Could not determine target subtitle file path.")⟩
    | some target_path =>
      if fs target_path then
        ⟨0, { ctx with translated_subtitle_path := some target_path }, none⟩
      else proceed ctx

/-! ## Helper lemmas -/

lemma filter_erase_ne (x : String) (l : List String) :
    (l.erase x).filter (· != x) = l.filter (· != x) := by
  induction l with
  | nil => rfl
  | cons a t ih =>
    by_cases h : a = x
    · subst h
      simp [List.erase_cons]
    · rw [List.erase_cons_tail]
      · simp only [List.filter_cons]
        rw [ih]
      · simp [h]

lemma indexOf_cons_ne_zero (a : String) (t : List String) (ha : ¬ a = "md") :
    (a :: t).indexOf "md" ≠ 0 := by
  have hb : (a == "md") = false := by simpa using ha
  rw [List.indexOf_cons, hb]
  simp

/-! ## C1 — identity action ordering -/

/-- C1: whenever the requested action list contains an identity-dependent
action ('dv', 'ds', 'dt', 'da' or 'tm'), the resolved order starts with the
identity action 'md' — prepended when absent, moved to the front when present
but not first (`"md" :: actions.erase "md"` also covers the already-first
case) — and the relative order of all other actions is unchanged. -/
theorem resolveOrder_identity_first (actions : List String)
    (h : ∃ a ∈ actions, a ∈ METADATA_DEPENDENCIES) :
    (resolveOrder actions).head? = some "md" ∧
    (resolveOrder actions).filter (· != "md") = actions.filter (· != "md") ∧
    ("md" ∉ actions → resolveOrder actions = "md" :: actions) ∧
    ("md" ∈ actions → resolveOrder actions = "md" :: actions.erase "md") := by
  unfold resolveOrder
  rw [if_pos h]
  by_cases hmem : "md" ∈ actions
  · rw [if_neg (by simpa using hmem)]
    rcases List.mem_iff_append.mp hmem with ⟨pre, post, rfl⟩
    by_cases hpre : "md" ∈ pre
    · -- first occurrence of "md" is inside `pre`, hence not at index 0 only if pre ≠ []
      cases pre with
      | nil =>
        rw [if_neg (by simp [List.indexOf_cons])]
        refine ⟨rfl, ?_, fun hn => absurd hmem hn, fun _ => ?_⟩
        · simp [List.filter_cons, filter_erase_ne]
        · simp [List.erase_cons]
      | cons a t =>
        by_cases ha : a = "md"
        · subst ha
          rw [if_neg (by simp [List.indexOf_cons])]
          refine ⟨rfl, ?_, fun hn => absurd hmem hn, fun _ => ?_⟩
          · simp [List.filter_cons, filter_erase_ne]
          · simp [List.erase_cons]
        · simp only [List.cons_append] at hmem ⊢
          rw [if_pos (indexOf_cons_ne_zero a _ ha)]
          refine ⟨rfl, ?_, fun hn => absurd hmem hn, fun _ => rfl⟩
          simp [List.filter_cons, filter_erase_ne]
    · cases pre with
      | nil =>
        rw [if_neg (by simp [List.indexOf_cons])]
        refine ⟨rfl, ?_, fun hn => absurd hmem hn, fun _ => ?_⟩
        · simp [List.filter_cons, filter_erase_ne]
        · simp [List.erase_cons]
      | cons a t =>
        have ha : ¬ a = "md" := by
          intro hc
          exact hpre (hc ▸ List.mem_cons_self a t)
        simp only [List.cons_append] at hmem ⊢
        rw [if_pos (indexOf_cons_ne_zero a _ ha)]
        refine ⟨rfl, ?_, fun hn => absurd hmem hn, fun _ => rfl⟩
        simp [List.filter_cons, filter_erase_ne]
  · rw [if_pos (by simpa using hmem)]
    refine ⟨rfl, ?_, fun _ => rfl, fun hc => absurd hc hmem⟩
    simp [List.filter_cons]

/-- Witness for C1 at a concrete input: requesting `["dv", "md"]` (an
identity-dependent action with 'md' present but not first) yields
`["md", "dv"]`. -/
theorem resolveOrder_identity_first_witness :
    (∃ a ∈ ["dv", "md"], a ∈ METADATA_DEPENDENCIES) ∧
    (resolveOrder ["dv", "md"]).head? = some "md" ∧
    resolveOrder ["dv", "md"] = "md" :: (["dv", "md"].erase "md") := by
  have h : ∃ a ∈ ["dv", "md"], a ∈ METADATA_DEPENDENCIES := by decide
  have hr := resolveOrder_identity_first ["dv", "md"] h
  exact ⟨h, hr.1, hr.2.2.2 (by decide)⟩

/-! ## C2 — unknown action identifiers -/

lemma executed_mem_command_keys (se : StepEffect) :
    ∀ (l : List String) (ctx : ProcessingContext),
      ∀ b ∈ (execActions se l ctx).executed, b ∈ COMMAND_KEYS := by
  intro l
  induction l with
  | nil =>
    intro ctx b hb
    simp [execActions] at hb
  | cons a rest ih =>
    intro ctx b hb
    rw [execActions] at hb
    by_cases hk : a ∈ COMMAND_KEYS
    · rw [if_neg (by simpa using hk)] at hb
      by_cases hp : a ∈ METADATA_DEPENDENCIES ∧ ctx.base = none
      · rw [if_pos hp] at hb
        simp at hb
      · rw [if_neg hp] at hb
        cases hse : se a ctx with
        | ok ctx' =>
          rw [hse] at hb
          simp at hb
          rcases hb with hb | hb
          · exact hb ▸ hk
          · exact ih ctx' b hb
        | error e =>
          rw [hse] at hb
          simp at hb
          exact hb ▸ hk
    · rw [if_pos hk] at hb
      exact ih ctx b hb

/-- C2 counterexample: the claim says unknown identifiers "do not appear in
the resolved execution order returned by order resolution", but the order
resolution step of `perform_actions` leaves them in `ordered_actions`: for
the request `["xx"]` the resolved order is `["xx"]` although `"xx"` is not a
registry key. -/
theorem unknown_key_in_resolved_order :
    "xx" ∈ resolveOrder ["xx"] ∧ "xx" ∉ COMMAND_KEYS := by
  decide

/-- C2 amended: unknown identifiers survive order resolution, but are logged
and skipped by the execution loop: executing `a :: rest` with `a` outside the
registry behaves exactly like executing `rest` (no command instance runs for
`a`), and every action whose command actually executes is a registry key. -/
theorem unknown_keys_skipped (se : StepEffect) (a : String)
    (rest : List String) (ctx : ProcessingContext) (h : a ∉ COMMAND_KEYS) :
    execActions se (a :: rest) ctx = execActions se rest ctx ∧
    a ∉ (execActions se (a :: rest) ctx).executed ∧
    (∀ l c, ∀ b ∈ (execActions se l c).executed, b ∈ COMMAND_KEYS) := by
  have heq : execActions se (a :: rest) ctx = execActions se rest ctx := by
    rw [execActions, if_pos h]
  refine ⟨heq, ?_, fun l c => executed_mem_command_keys se l c⟩
  intro hmem
  exact h (executed_mem_command_keys se (a :: rest) ctx a hmem)

/-- Witness for C2's amended theorem: the unknown key `"xx"` ahead of a known
key `"md"` is skipped; the loop result is that of `["md"]` alone. -/
theorem unknown_keys_skipped_witness :
    execActions (fun _ ctx => .ok ctx) ["xx", "md"]
        (mkContext "u" none "out" {}) =
      execActions (fun _ ctx => .ok ctx) ["md"] (mkContext "u" none "out" {}) ∧
    "xx" ∉ (execActions (fun _ ctx => .ok ctx) ["xx", "md"]
        (mkContext "u" none "out" {})).executed := by
  have h := unknown_keys_skipped (fun _ ctx => .ok ctx) "xx" ["md"]
    (mkContext "u" none "out" {}) (by decide)
  exact ⟨h.1, h.2.1⟩

/-! ## C3 — preflight tool-check failure has zero side effects -/

/-- C3: when some tool required by the requested actions cannot be resolved,
`perform_actions` returns `False` before constructing a `ProcessingContext`:
no step executes (empty executed list), no context exists (so no base name is
ever set and no artifact is produced). -/
theorem preflight_failure_no_side_effects (avail : String → Bool)
    (se : StepEffect) (url : String) (ya : Option String)
    (actions : List String) (outdir : String) (settings : Settings)
    (h : ∃ t ∈ requiredTools actions, avail t = false) :
    performActions avail se url ya actions outdir settings =
      ⟨false, [], none⟩ := by
  have hc : ¬ checkToolAvailability avail actions = true := by
    intro hall
    obtain ⟨t, ht, hf⟩ := h
    have := List.all_eq_true.mp hall t ht
    rw [hf] at this
    cases this
  unfold performActions
  rw [if_pos hc]

/-- Witness for C3: with no tool resolvable and `['dv']` requested (which
needs yt-dlp and ffmpeg), the run aborts with no context and nothing
executed. -/
theorem preflight_failure_no_side_effects_witness :
    (∃ t ∈ requiredTools ["dv"], (fun _ : String => false) t = false) ∧
    performActions (fun _ => false) (fun _ ctx => .ok ctx) "u" none ["dv"]
        "out" {} = ⟨false, [], none⟩ := by
  refine ⟨⟨"yt-dlp", by decide, rfl⟩, ?_⟩
  exact preflight_failure_no_side_effects _ _ _ _ _ _ _ ⟨"yt-dlp", by decide, rfl⟩

/-! ## C4 — a fatal step error aborts the remaining chain -/

lemma execActions_append (se : StepEffect) (xs ys : List String)
    (ctx : ProcessingContext) (h : (execActions se xs ctx).success = true) :
    execActions se (xs ++ ys) ctx =
      ⟨(execActions se ys (execActions se xs ctx).ctx).success,
       (execActions se xs ctx).executed ++
         (execActions se ys (execActions se xs ctx).ctx).executed,
       (execActions se ys (execActions se xs ctx).ctx).ctx⟩ := by
  induction xs generalizing ctx with
  | nil => simp [execActions]
  | cons a rest ih =>
    rw [execActions] at h
    rw [List.cons_append, execActions]
    by_cases hk : a ∈ COMMAND_KEYS
    · rw [if_neg (by simpa using hk)] at h ⊢
      by_cases hp : a ∈ METADATA_DEPENDENCIES ∧ ctx.base = none
      · rw [if_pos hp] at h
        cases h
      · rw [if_neg hp] at h ⊢
        cases hse : se a ctx with
        | ok ctx' =>
          rw [hse] at h
          dsimp only at h ⊢
          rw [ih ctx' h]
          have hx : execActions se (a :: rest) ctx =
              ⟨(execActions se rest ctx').success,
               a :: (execActions se rest ctx').executed,
               (execActions se rest ctx').ctx⟩ := by
            rw [execActions, if_neg (by simpa using hk), if_neg hp, hse]
          rw [hx]
          simp
        | error e =>
          rw [hse] at h
          dsimp only at h
          cases h
    · rw [if_pos hk] at h ⊢
      have hx : execActions se (a :: rest) ctx = execActions se rest ctx := by
        rw [execActions, if_pos hk]
      rw [hx]
      exact ih ctx h

/-- C4: if the resolved order splits as `pre ++ a :: post`, every step of
`pre` succeeded (leaving context `ctxN`), and the command for `a` (a known
key whose precondition holds) raises any of the caught exception categories,
then `perform_actions` returns `False`, no action of `post` executes, and the
final context is exactly `ctxN` — the fields populated by earlier steps are
untouched (no rollback). -/
theorem fatal_error_aborts (avail : String → Bool) (se : StepEffect)
    (url : String) (ya : Option String) (actions pre post : List String)
    (a : String) (outdir : String) (settings : Settings) (ex : List String)
    (ctxN : ProcessingContext) (e : PyError)
    (hcheck : checkToolAvailability avail actions = true)
    (hord : resolveOrder actions = pre ++ a :: post)
    (hpre : execActions se pre (mkContext url ya outdir settings) =
      ⟨true, ex, ctxN⟩)
    (hk : a ∈ COMMAND_KEYS)
    (hbase : ¬ (a ∈ METADATA_DEPENDENCIES ∧ ctxN.base = none))
    (herr : se a ctxN = .error e) :
    performActions avail se url ya actions outdir settings =
      ⟨false, ex ++ [a], some ctxN⟩ := by
  have hnc : ¬ ¬ checkToolAvailability avail actions = true := by
    simp [hcheck]
  unfold performActions
  rw [if_neg hnc]
  dsimp only
  rw [hord, execActions_append se pre (a :: post) _ (by rw [hpre]), hpre]
  have hstep : execActions se (a :: post) ctxN = ⟨false, [a], ctxN⟩ := by
    rw [execActions, if_neg (by simpa using hk), if_neg hbase, herr]
  simp [hstep]

/-- A concrete step oracle for the C4 witness: 'md' sets the base name,
'dv' raises `CalledProcessError`, everything else succeeds unchanged. -/
def witnessSE : StepEffect := fun k c =>
  if k = "md" then .ok { c with base := some "vid" }
  else if k = "dv" then .error (.calledProcessError 1)
  else .ok c

/-- The context after the 'md' step of the C4 witness run. -/
def witnessCtx1 : ProcessingContext :=
  { mkContext "u" none "out" {} with base := some "vid" }

/-- Witness for C4 at concrete inputs: of the resolved order
`["md", "dv", "ds"]`, step 'md' succeeds and sets the base name, step 'dv'
raises `CalledProcessError`; the run fails with only `["md", "dv"]` executed
and the context exactly as 'md' left it. -/
theorem fatal_error_aborts_witness :
    performActions (fun _ => true) witnessSE "u" none ["md", "dv", "ds"]
        "out" {} = ⟨false, ["md"] ++ ["dv"], some witnessCtx1⟩ :=
  fatal_error_aborts (fun _ => true) witnessSE "u" none ["md", "dv", "ds"]
    ["md"] ["ds"] "dv" "out" {} ["md"] witnessCtx1 (.calledProcessError 1)
    (by decide) (by decide) (by decide) (by decide) (by decide) rfl

/-! ## C5 — path derivation -/

/-- C5: `_get_path` returns `None` whenever the base name is unset (`None`
or, by Python falsiness, the empty string), and so do all artifact
accessors; with a set (non-empty) base it returns the output directory
joined with `base + suffix + ext` where suffix and extension are normalized
to carry exactly one leading `"."` (none if empty), the extension is not
appended again when the normalized suffix already ends with it, and a bare
`"mp4"` extension yields the same path as `".mp4"`. -/
theorem path_derivation_properties :
    (∀ (ctx : ProcessingContext) (suffix ext : String), ctx.base = none →
      ctx.getPath suffix ext = none) ∧
    (∀ (ctx : ProcessingContext) (lang : Option String) (slang : String),
      ctx.base = none →
      ctx.get_metadata_filepath lang = none ∧
      ctx.get_subtitle_filepath slang = none ∧
      ctx.get_video_filepath = none ∧
      ctx.get_merged_video_filepath = none ∧
      ctx.get_thumbnail_filepath = none) ∧
    (∀ (ctx : ProcessingContext) (b suffix ext : String), ctx.base = some b →
      b ≠ "" →
      ctx.getPath suffix ext =
        some (osPathJoin ctx.output_dir
          (if strEndsWith (normSuffix suffix) (normExt ext) ∧ normExt ext ≠ ""
           then b ++ normSuffix suffix
           else b ++ normSuffix suffix ++ normExt ext))) ∧
    (∀ s : String, s ≠ "" → ¬ strStartsWith s "." → normSuffix s = "." ++ s) ∧
    (∀ s : String, strStartsWith s "." → normSuffix s = s) ∧
    (normSuffix "" = "" ∧ normExt "" = "") ∧
    (∀ e : String, pyStrip e ≠ "" → ¬ strStartsWith (pyStrip e) "." →
      normExt e = "." ++ pyStrip e) ∧
    (∀ (ctx : ProcessingContext) (suffix : String),
      ctx.getPath suffix "mp4" = ctx.getPath suffix ".mp4") := by
  refine ⟨?_, ?_, ?_, ?_, ?_, ⟨by decide, by decide⟩, ?_, ?_⟩
  · intro ctx suffix ext h
    simp [ProcessingContext.getPath, h]
  · intro ctx lang slang h
    refine ⟨?_, ?_, ?_, ?_, ?_⟩ <;>
      simp [ProcessingContext.get_metadata_filepath,
        ProcessingContext.get_subtitle_filepath,
        ProcessingContext.get_video_filepath,
        ProcessingContext.get_merged_video_filepath,
        ProcessingContext.get_thumbnail_filepath,
        ProcessingContext.getPath, h]
  · intro ctx b suffix ext h hb
    simp [ProcessingContext.getPath, h, hb]
  · intro s h1 h2
    simp [normSuffix, h1, h2]
  · intro s h
    have h1 : ¬ (s ≠ "" ∧ ¬ strStartsWith s "." = true) := by
      intro hc
      exact hc.2 h
    unfold normSuffix
    rw [if_neg h1]
  · intro e h1 h2
    simp [normExt, h1, h2]
  · intro ctx suffix
    have hmp : normExt "mp4" = normExt ".mp4" := by decide
    cases hb : ctx.base with
    | none => simp [ProcessingContext.getPath, hb]
    | some b => simp [ProcessingContext.getPath, hb, hmp]

/-- Witness for C5: a context without a base name derives no path; a context
with base `"b"` derives `"o/b.sub.mp4"` for suffix `"sub"` and extension
`"mp4"`; the suffix is normalized to `".sub"`. -/
theorem path_derivation_properties_witness :
    ({ url := "u", output_dir := "o" } : ProcessingContext).getPath ".x" "y"
      = none ∧
    ({ url := "u", output_dir := "o", base := some "b" } :
      ProcessingContext).getPath "sub" "mp4" = some "o/b.sub.mp4" ∧
    normSuffix "sub" = ".sub" := by
  refine ⟨path_derivation_properties.1 _ ".x" "y" rfl, ?_,
    path_derivation_properties.2.2.2.1 "sub" (by decide) (by decide)⟩
  have h := path_derivation_properties.2.2.1
    { url := "u", output_dir := "o", base := some "b" } "b" "sub" "mp4" rfl
    (by decide)
  rw [h]
  decide

/-! ## C9 — sanitized base-name invariant -/

lemma mem_replaceForbidden (l : List Char) (c : Char)
    (h : c ∈ replaceForbidden l) : c ∉ FORBIDDEN_CHARS := by
  rw [replaceForbidden, List.mem_map] at h
  obtain ⟨a, _, rfl⟩ := h
  by_cases ha : a ∈ FORBIDDEN_CHARS
  · rw [if_pos ha]
    decide
  · rw [if_neg ha]
    exact ha

lemma mem_collapseSpacesAux (l : List Char) :
    ∀ (flag : Bool) (c : Char), c ∈ collapseSpacesAux flag l →
      (c = '_' ∨ c ∈ l) ∧ pyIsSpace c = false := by
  induction l with
  | nil =>
    intro flag c h
    simp [collapseSpacesAux] at h
  | cons a t ih =>
    intro flag c h
    rw [collapseSpacesAux] at h
    by_cases hs : pyIsSpace a = true
    · rw [if_pos hs] at h
      cases flag with
      | true =>
        have := ih true c h
        exact ⟨this.1.imp_right (List.mem_cons_of_mem a), this.2⟩
      | false =>
        rcases List.mem_cons.mp h with rfl | h2
        · exact ⟨Or.inl rfl, by decide⟩
        · have := ih true c h2
          exact ⟨this.1.imp_right (List.mem_cons_of_mem a), this.2⟩
    · rw [if_neg hs] at h
      rcases List.mem_cons.mp h with rfl | h2
      · exact ⟨Or.inr (List.mem_cons_self c t), by simpa using hs⟩
      · have := ih false c h2
        exact ⟨this.1.imp_right (List.mem_cons_of_mem a), this.2⟩

/-- The cleaned base name is never empty, has at most 100 characters, and
contains neither forbidden filename characters nor whitespace. -/
lemma sanitizeBase_valid (raw : String) :
    (sanitizeBase raw).data ≠ [] ∧ (sanitizeBase raw).data.length ≤ 100 ∧
    ∀ c ∈ (sanitizeBase raw).data, c ∉ FORBIDDEN_CHARS ∧ pyIsSpace c = false := by
  unfold sanitizeBase
  by_cases h : (collapseSpaces (replaceForbidden raw.data)).take 100 = []
  · simp only [collapseSpaces] at h ⊢
    rw [if_pos h]
    exact ⟨by decide, by decide, by decide⟩
  · simp only [collapseSpaces] at h ⊢
    rw [if_neg h]
    refine ⟨h, ?_, ?_⟩
    · simp [List.length_take]
    · intro c hc
      have hc2 : c ∈ collapseSpacesAux false (replaceForbidden raw.data) :=
        List.take_subset 100 _ hc
      have hprops := mem_collapseSpacesAux (replaceForbidden raw.data) false c hc2
      refine ⟨?_, hprops.2⟩
      rcases hprops.1 with rfl | hmem
      · decide
      · exact mem_replaceForbidden _ c hmem

/-- C9: whenever `DownloadMetadata.execute` returns normally, the resulting
context's base name is a non-empty string of at most 100 characters
containing none of the characters `< > : " / \ | ? *` and no whitespace. -/
theorem metadata_sets_valid_base (toolAvail : Bool)
    (fetch : Except PyError MetaFetch) (writeOk : Bool)
    (ctx : ProcessingContext)
    (h : (downloadMetadataExecute toolAvail fetch writeOk ctx).outcome = none) :
    ∃ b : String,
      (downloadMetadataExecute toolAvail fetch writeOk ctx).ctx.base = some b ∧
      b.data ≠ [] ∧ b.data.length ≤ 100 ∧
      ∀ c ∈ b.data, c ∉ FORBIDDEN_CHARS ∧ pyIsSpace c = false := by
  cases toolAvail with
  | false => simp [downloadMetadataExecute] at h
  | true =>
    cases fetch with
    | error e => simp [downloadMetadataExecute] at h
    | ok data =>
      simp only [downloadMetadataExecute] at h ⊢
      rw [if_neg (by simp)] at h ⊢
      set raw := if data.id ≠ "" then data.id else data.title with hraw
      set ctx1 : ProcessingContext := { ctx with
        base := some (sanitizeBase raw)
        title := some data.title
        description := some data.description
        tags := data.tags } with hctx1
      cases hm : ctx1.get_metadata_filepath none with
      | none =>
        rw [hm] at h
        simp at h
      | some meta_path =>
        rw [hm] at h
        cases writeOk with
        | false => simp at h
        | true =>
          refine ⟨sanitizeBase raw, ?_, sanitizeBase_valid raw⟩
          rfl

/-- Witness for C9: a successful metadata run on a fresh context (yt-dlp
available, default JSON values, successful write) sets
`base = some "untitled"`, which satisfies the invariant. -/
theorem metadata_sets_valid_base_witness :
    (downloadMetadataExecute true (.ok {}) true
        { url := "u", output_dir := "o" }).outcome = none ∧
    ∃ b : String,
      (downloadMetadataExecute true (.ok {}) true
          { url := "u", output_dir := "o" }).ctx.base = some b ∧
      b.data ≠ [] ∧ b.data.length ≤ 100 ∧
      ∀ c ∈ b.data, c ∉ FORBIDDEN_CHARS ∧ pyIsSpace c = false := by
  refine ⟨by decide, metadata_sets_valid_base true (.ok {}) true
    { url := "u", output_dir := "o" } (by decide)⟩

/-! ## C8 — idempotent skip -/

/-- C8 counterexample: the claim quantifies over *every* command in the
registry, but `DownloadMetadata` ('md', a registry key) performs no
existence check at all — its model takes no filesystem argument because the
source never calls `os.path.exists` — so even in a state where its target
artifact `"o/b.meta.txt"` is on disk it still invokes yt-dlp
(`toolInvocations = 1`, not `0`). -/
theorem metadata_no_idempotent_skip :
    "md" ∈ COMMAND_KEYS ∧
    ({ url := "u", output_dir := "o", base := some "b" } :
        ProcessingContext).get_metadata_filepath none = some "o/b.meta.txt" ∧
    (downloadMetadataExecute true (.ok { id := "b" }) true
        { url := "u", output_dir := "o", base := some "b" }).toolInvocations
      = 1 := by
  decide

/-- C8 amended: every registry command except the identity command
`DownloadMetadata` honours the idempotent-skip contract: when its earlier
precondition checks pass and its target artifact already exists on disk, it
invokes no external tool, records the existing path into the context and
returns normally. -/
theorem idempotent_skip_except_metadata :
    (∀ (fs : String → Bool) (proceed : ProcessingContext → CommandResult)
       (ctx : ProcessingContext) (p : String),
       optStrFalsy ctx.base = false → ctx.yt_dlp_format ≠ "" →
       ctx.video_format_ext ≠ "" → ctx.get_video_filepath = some p →
       fs p = true →
       downloadVideoExecute fs proceed ctx =
         ⟨0, { ctx with video_path := some p }, none⟩) ∧
    (∀ (fs : String → Bool) (proceed : ProcessingContext → CommandResult)
       (ctx : ProcessingContext) (p : String),
       optStrFalsy ctx.base = false → ctx.subtitle_lang ≠ "" →
       ctx.subtitle_format ≠ "" →
       ctx.get_subtitle_filepath ctx.subtitle_lang = some p → fs p = true →
       downloadSubtitlesExecute fs proceed ctx =
         ⟨0, { ctx with subtitle_path := some p }, none⟩) ∧
    (∀ (fs : String → Bool) (parseFloatOk : String → Bool)
       (proceed : ProcessingContext → CommandResult)
       (ctx : ProcessingContext) (p : String),
       optStrFalsy ctx.video_path = false →
       optStrFalsy ctx.yandex_audio = false →
       optStrFalsy ctx.base = false →
       parseFloatOk ctx.original_volume = true →
       parseFloatOk ctx.added_volume = true →
       ctx.merged_audio_codec ≠ "" →
       ctx.get_merged_video_filepath = some p →
       fs (ctx.video_path.getD "") = true →
       fs (ctx.yandex_audio.getD "") = true → fs p = true →
       mergeAudioExecute fs parseFloatOk proceed ctx =
         ⟨0, { ctx with merged_video_path := some p }, none⟩) ∧
    (∀ (fs : String → Bool) (proceed : ProcessingContext → CommandResult)
       (ctx : ProcessingContext) (p : String),
       optStrFalsy ctx.base = false →
       ¬ (optStrFalsy ctx.title = true ∧ optStrFalsy ctx.description = true ∧
          ctx.tags = []) →
       ctx.source_lang ≠ "" → ctx.target_lang ≠ "" →
       ctx.source_lang ≠ ctx.target_lang →
       ctx.get_metadata_filepath (some ctx.target_lang) = some p →
       fs p = true →
       translateMetadataExecute fs proceed ctx =
         ⟨0, { ctx with translated_metadata_path := some p }, none⟩) ∧
    (∀ (fs : String → Bool) (proceed : ProcessingContext → CommandResult)
       (ctx : ProcessingContext) (p : String),
       optStrFalsy ctx.subtitle_path = false →
       fs (ctx.subtitle_path.getD "") = true →
       optStrFalsy ctx.base = false →
       ctx.source_lang ≠ "" → ctx.target_lang ≠ "" →
       ctx.subtitle_format ≠ "" →
       ctx.source_lang ≠ ctx.target_lang →
       ctx.get_subtitle_filepath ctx.target_lang = some p → fs p = true →
       translateSubtitlesExecute fs proceed ctx =
         ⟨0, { ctx with translated_subtitle_path := some p }, none⟩) := by
  refine ⟨?_, ?_, ?_, ?_, ?_⟩
  · intro fs proceed ctx p h1 h2 h3 h4 h5
    simp [downloadVideoExecute, h1, h2, h3, h4, h5]
  · intro fs proceed ctx p h1 h2 h3 h4 h5
    simp [downloadSubtitlesExecute, h1, h2, h3, h4, h5]
  · intro fs parseFloatOk proceed ctx p h1 h2 h3 h4 h5 h6 h7 h8 h9 h10
    simp [mergeAudioExecute, h1, h2, h3, h4, h5, h6, h7, h8, h9, h10]
  · intro fs proceed ctx p h1 h2 h3 h4 h5 h6 h7
    simp [translateMetadataExecute, h1, h2, h3, h4, h5, h6, h7]
  · intro fs proceed ctx p h1 h2 h3 h4 h5 h6 h7 h8 h9
    simp [translateSubtitlesExecute, h1, h2, h3, h4, h5, h6, h7, h8, h9]

/-- A context in which every skip-capable command finds its target artifact
already on disk. -/
def ctxW : ProcessingContext :=
  { url := "u", output_dir := "o", base := some "b", title := some "t",
    subtitle_path := some "o/b.en.vtt", video_path := some "o/b.mp4",
    yandex_audio := some "a.mp3" }

/-- Witness for C8's amended theorem: with every file present on disk, each
of the five skip-capable commands returns with zero tool invocations and the
recorded path (the `proceed` oracle would have reported 5 invocations, so
the skip branch is the one taken). -/
theorem idempotent_skip_except_metadata_witness :
    downloadVideoExecute (fun _ => true) (fun c => ⟨5, c, none⟩) ctxW =
      ⟨0, { ctxW with video_path := some "o/b.mp4" }, none⟩ ∧
    downloadSubtitlesExecute (fun _ => true) (fun c => ⟨5, c, none⟩) ctxW =
      ⟨0, { ctxW with subtitle_path := some "o/b.en.vtt" }, none⟩ ∧
    mergeAudioExecute (fun _ => true) (fun _ => true) (fun c => ⟨5, c, none⟩)
        ctxW = ⟨0, { ctxW with merged_video_path := some "o/b.mixed.mp4" }, none⟩ ∧
    translateMetadataExecute (fun _ => true) (fun c => ⟨5, c, none⟩) ctxW =
      ⟨0, { ctxW with translated_metadata_path := some "o/b.meta.ru.txt" }, none⟩ ∧
    translateSubtitlesExecute (fun _ => true) (fun c => ⟨5, c, none⟩) ctxW =
      ⟨0, { ctxW with translated_subtitle_path := some "o/b.ru.vtt" }, none⟩ := by
  refine ⟨?_, ?_, ?_, ?_, ?_⟩
  · exact idempotent_skip_except_metadata.1 (fun _ => true) _ ctxW "o/b.mp4"
      (by decide) (by decide) (by decide) (by decide) rfl
  · exact idempotent_skip_except_metadata.2.1 (fun _ => true) _ ctxW
      "o/b.en.vtt" (by decide) (by decide) (by decide) (by decide) rfl
  · exact idempotent_skip_except_metadata.2.2.1 (fun _ => true) (fun _ => true)
      _ ctxW "o/b.mixed.mp4" (by decide) (by decide) (by decide) rfl rfl
      (by decide) (by decide) rfl rfl rfl
  · exact idempotent_skip_except_metadata.2.2.2.1 (fun _ => true) _ ctxW
      "o/b.meta.ru.txt" (by decide) (by decide) (by decide) (by decide)
      (by decide) (by decide) rfl
  · exact idempotent_skip_except_metadata.2.2.2.2 (fun _ => true) _ ctxW
      "o/b.ru.vtt" (by decide) rfl (by decide) (by decide) (by decide)
      (by decide) (by decide) (by decide) rfl

/-! ## Log-event helper lemmas -/

lemma mkLogEvent_type (msg origin : String) :
    (mkLogEvent msg origin).type = "log" := by
  unfold mkLogEvent
  dsimp only
  split
  · rfl
  split
  · rfl
  split
  · rfl
  split
  · rfl
  split
  · rfl
  rfl

lemma mkLogEvent_origin (msg origin : String) :
    (mkLogEvent msg origin).origin = origin := by
  unfold mkLogEvent
  dsimp only
  split
  · rfl
  split
  · rfl
  split
  · rfl
  split
  · rfl
  split
  · rfl
  rfl

lemma pyStartsWith_iff (p : List Char) :
    ∀ l, pyStartsWith p l = true ↔ ∃ t, l = p ++ t := by
  induction p with
  | nil =>
    intro l
    simp [pyStartsWith]
  | cons a ps ih =>
    intro l
    cases l with
    | nil => simp [pyStartsWith]
    | cons c cs =>
      rw [pyStartsWith]
      simp only [Bool.and_eq_true, beq_iff_eq]
      constructor
      · rintro ⟨rfl, h2⟩
        obtain ⟨t, rfl⟩ := (ih cs).mp h2
        exact ⟨t, rfl⟩
      · rintro ⟨t, ht⟩
        cases ht
        exact ⟨rfl, (ih (ps ++ t)).mpr ⟨t, rfl⟩⟩

/-! ## C6 — busy-flag exclusion at run submission -/

/-- C6 counterexample: the claim says that whenever the url origin's busy
flag is clear, `run` sets the flag and spawns a worker; but in the state
where the trim origin is busy (`_is_trimming` with a live trim thread), the
code rejects the url run instead — cross-origin exclusion the claim omits. -/
theorem busy_flag_claim_false :
    ¬ (∀ s : ViewModelState, s.is_url_processing = false →
        (VideoViewModel.run s).workers_spawned = s.workers_spawned + 1 ∧
        (VideoViewModel.run s).is_url_processing = true) := by
  intro hclaim
  have h := hclaim
    { is_url_processing := false, url_thread_alive := false,
      is_trimming := true, trim_thread_alive := true, queue := [],
      workers_spawned := 0 } rfl
  exact absurd h.1 (by decide)

/-- C6 amended: a `run` (resp. `run_trim`) call rejects — appending exactly
one WARN log event tagged with its origin, spawning no worker, leaving all
flags unchanged — when *either* origin is busy (its flag set and its worker
thread alive); otherwise it sets its origin's flag, enqueues exactly one
"running" status event tagged with the origin and spawns exactly one
worker. -/
theorem busy_flag_exclusion (s : ViewModelState) :
    (((s.is_url_processing = true ∧ s.url_thread_alive = true) ∨
      (s.is_trimming = true ∧ s.trim_thread_alive = true)) →
      ∃ w : Event, VideoViewModel.run s = { s with queue := s.queue ++ [w] } ∧
        w.type = "log" ∧ w.level = "WARN" ∧ w.origin = "url") ∧
    (¬ ((s.is_url_processing = true ∧ s.url_thread_alive = true) ∨
        (s.is_trimming = true ∧ s.trim_thread_alive = true)) →
      VideoViewModel.run s =
        { s with
            is_url_processing := true
            url_thread_alive := true
            queue := s.queue ++ [⟨"status", "INFO", "running".data, "url"⟩]
            workers_spawned := s.workers_spawned + 1 }) ∧
    (((s.is_url_processing = true ∧ s.url_thread_alive = true) ∨
      (s.is_trimming = true ∧ s.trim_thread_alive = true)) →
      ∃ w : Event, VideoViewModel.run_trim s =
        { s with queue := s.queue ++ [w] } ∧
        w.type = "log" ∧ w.level = "WARN" ∧ w.origin = "trim") ∧
    (¬ ((s.is_url_processing = true ∧ s.url_thread_alive = true) ∨
        (s.is_trimming = true ∧ s.trim_thread_alive = true)) →
      VideoViewModel.run_trim s =
        { s with
            is_trimming := true
            trim_thread_alive := true
            queue := s.queue ++ [⟨"status", "INFO", "running".data, "trim"⟩]
            workers_spawned := s.workers_spawned + 1 }) := by
  refine ⟨?_, ?_, ?_, ?_⟩
  · intro hbusy
    by_cases hA : s.is_url_processing = true ∧ s.url_thread_alive = true
    · refine ⟨mkLogEvent "[WARN] Задача обработки URL уже выполняется." "url",
        ?_, mkLogEvent_type _ _, by decide, mkLogEvent_origin _ _⟩
      unfold VideoViewModel.run
      rw [if_pos hA]
      rfl
    · have hB : s.is_trimming = true ∧ s.trim_thread_alive = true := by
        rcases hbusy with h | h
        · exact absurd h hA
        · exact h
      refine ⟨mkLogEvent
        "[WARN] Дождитесь завершения обрезки перед запуском обработки URL."
        "url", ?_, mkLogEvent_type _ _, by decide, mkLogEvent_origin _ _⟩
      unfold VideoViewModel.run
      rw [if_neg hA, if_pos hB]
      rfl
  · intro hfree
    push_neg at hfree
    unfold VideoViewModel.run
    rw [if_neg ?hA, if_neg ?hB]
    case hA =>
      intro hc
      exact absurd hc.2 (hfree.1 hc.1)
    case hB =>
      intro hc
      exact absurd hc.2 (hfree.2 hc.1)
  · intro hbusy
    by_cases hB : s.is_trimming = true ∧ s.trim_thread_alive = true
    · refine ⟨mkLogEvent "[WARN] Задача обрезки уже выполняется." "trim",
        ?_, mkLogEvent_type _ _, by decide, mkLogEvent_origin _ _⟩
      unfold VideoViewModel.run_trim
      rw [if_pos hB]
      rfl
    · have hA : s.is_url_processing = true ∧ s.url_thread_alive = true := by
        rcases hbusy with h | h
        · exact h
        · exact absurd h hB
      refine ⟨mkLogEvent
        "[WARN] Дождитесь завершения обработки URL перед запуском обрезки."
        "trim", ?_, mkLogEvent_type _ _, by decide, mkLogEvent_origin _ _⟩
      unfold VideoViewModel.run_trim
      rw [if_neg hB, if_pos hA]
      rfl
  · intro hfree
    push_neg at hfree
    unfold VideoViewModel.run_trim
    rw [if_neg ?hB2, if_neg ?hA2]
    case hB2 =>
      intro hc
      exact absurd hc.2 (hfree.2 hc.1)
    case hA2 =>
      intro hc
      exact absurd hc.2 (hfree.1 hc.1)

/-- An idle ViewModel state (both origins free). -/
def vmIdle : ViewModelState := {}

/-- A state in which a url-processing worker is active. -/
def vmBusy : ViewModelState :=
  { is_url_processing := true, url_thread_alive := true }

/-- Witness for C6's amended theorem: from the busy state, `run` appends one
WARN event and spawns nothing; from the idle state, it sets the flag,
enqueues a running status and spawns one worker. -/
theorem busy_flag_exclusion_witness :
    (∃ w : Event, VideoViewModel.run vmBusy =
        { vmBusy with queue := vmBusy.queue ++ [w] } ∧
      w.type = "log" ∧ w.level = "WARN" ∧ w.origin = "url") ∧
    VideoViewModel.run vmIdle =
      { vmIdle with
          is_url_processing := true
          url_thread_alive := true
          queue := vmIdle.queue ++ [⟨"status", "INFO", "running".data, "url"⟩]
          workers_spawned := vmIdle.workers_spawned + 1 } := by
  exact ⟨(busy_flag_exclusion vmBusy).1 (Or.inl ⟨rfl, rfl⟩),
    (busy_flag_exclusion vmIdle).2.1 (by decide)⟩

/-! ## C7 — exactly one terminal status event, flag cleared after it -/

/-- C7: for every worker outcome — success, failure, or an escaping
exception — the worker's operation trace contains exactly one terminal
status event; the trace ends with the busy-flag reset (so the status event is
enqueued strictly before the flag is cleared, and the flag is reset exactly
once); the status data is "finished" precisely when the executed operation
succeeded, and "error" (at ERROR level) in every other case.  Both the url
worker and the trim worker are covered. -/
theorem worker_terminal_status
    (uo : Except (String × String × String) Bool)
    (tro : Except (Bool × String × String × String) Unit) :
    ((urlWorkerTrace uo).countP isTerminalStatus = 1 ∧
     (∃ pre, urlWorkerTrace uo = pre ++ [.clearBusyFlag "url"] ∧
       pre.countP isTerminalStatus = 1 ∧ pre.countP isClearFlag = 0) ∧
     ((urlWorkerTrace uo).filter isTerminalStatus =
        [.enqueueEvent ⟨"status", "INFO", "finished".data, "url"⟩] ↔
          uo = .ok true) ∧
     (uo ≠ .ok true →
       (urlWorkerTrace uo).filter isTerminalStatus =
         [.enqueueEvent ⟨"status", "ERROR", "error".data, "url"⟩])) ∧
    ((trimWorkerTrace tro).countP isTerminalStatus = 1 ∧
     (∃ pre, trimWorkerTrace tro = pre ++ [.clearBusyFlag "trim"] ∧
       pre.countP isTerminalStatus = 1 ∧ pre.countP isClearFlag = 0) ∧
     ((trimWorkerTrace tro).filter isTerminalStatus =
        [.enqueueEvent ⟨"status", "INFO", "finished".data, "trim"⟩] ↔
          tro = .ok ()) ∧
     (tro ≠ .ok () →
       (trimWorkerTrace tro).filter isTerminalStatus =
         [.enqueueEvent ⟨"status", "ERROR", "error".data, "trim"⟩])) := by
  constructor
  · cases uo with
    | ok b =>
      cases b with
      | true =>
        refine ⟨by decide, ⟨[.enqueueEvent
          ⟨"status", "INFO", "finished".data, "url"⟩], by decide⟩,
          ⟨fun _ => rfl, fun _ => by decide⟩, fun hne => absurd rfl hne⟩
      | false =>
        refine ⟨by decide, ⟨[.enqueueEvent
          ⟨"status", "ERROR", "error".data, "url"⟩], by decide⟩,
          ⟨fun hf => absurd hf (by decide),
           fun hc => absurd (Except.ok.inj hc) (by decide)⟩,
          fun _ => by decide⟩
    | error err =>
      obtain ⟨name, m, tb⟩ := err
      refine ⟨?_, ⟨[.enqueueEvent (mkLogEvent
          ("[ERROR] Критическая ошибка во время выполнения VideoService: " ++
            name ++ " - " ++ m) "url"),
        .enqueueEvent (mkLogEvent ("[DEBUG] Traceback:\n" ++ tb) "url"),
        .enqueueEvent ⟨"status", "ERROR", "error".data, "url"⟩], rfl, ?_, ?_⟩,
        ?_, ?_⟩
      · simp [urlWorkerTrace, List.countP_cons, isTerminalStatus,
          mkLogEvent_type]
      · simp [List.countP_cons, isTerminalStatus, mkLogEvent_type]
      · simp [List.countP_cons, isClearFlag]
      · constructor
        · intro hf
          exfalso
          rw [urlWorkerTrace] at hf
          simp [List.filter_cons, isTerminalStatus, mkLogEvent_type] at hf
        · intro hc
          cases hc
      · intro hne
        rw [urlWorkerTrace]
        simp [List.filter_cons, isTerminalStatus, mkLogEvent_type]
  · cases tro with
    | ok u =>
      cases u
      refine ⟨by decide, ⟨[.enqueueEvent
        ⟨"status", "INFO", "finished".data, "trim"⟩], by decide⟩,
        ⟨fun _ => rfl, fun _ => by decide⟩, fun hne => absurd rfl hne⟩
    | error err =>
      obtain ⟨categorized, name, m, tb⟩ := err
      cases categorized with
      | true =>
        refine ⟨?_, ⟨[.enqueueEvent (mkLogEvent
            ("[ERROR] Ошибка во время выполнения обрезки: " ++ name ++ " - " ++
              m) "trim"),
          .enqueueEvent ⟨"status", "ERROR", "error".data, "trim"⟩], rfl, ?_, ?_⟩,
          ?_, ?_⟩
        · simp [trimWorkerTrace, List.countP_cons, isTerminalStatus,
            mkLogEvent_type]
        · simp [List.countP_cons, isTerminalStatus, mkLogEvent_type]
        · simp [List.countP_cons, isClearFlag]
        · constructor
          · intro hf
            exfalso
            rw [trimWorkerTrace] at hf
            simp [List.filter_cons, isTerminalStatus, mkLogEvent_type] at hf
          · intro hc
            cases hc
        · intro hne
          rw [trimWorkerTrace]
          simp [List.filter_cons, isTerminalStatus, mkLogEvent_type]
      | false =>
        refine ⟨?_, ⟨[.enqueueEvent (mkLogEvent
            ("[ERROR] Ошибка во время выполнения обрезки: " ++ name ++ " - " ++
              m) "trim"),
          .enqueueEvent (mkLogEvent ("[DEBUG] Traceback:\n" ++ tb) "trim"),
          .enqueueEvent ⟨"status", "ERROR", "error".data, "trim"⟩], rfl, ?_, ?_⟩,
          ?_, ?_⟩
        · simp [trimWorkerTrace, List.countP_cons, isTerminalStatus,
            mkLogEvent_type]
        · simp [List.countP_cons, isTerminalStatus, mkLogEvent_type]
        · simp [List.countP_cons, isClearFlag]
        · constructor
          · intro hf
            exfalso
            rw [trimWorkerTrace] at hf
            simp [List.filter_cons, isTerminalStatus, mkLogEvent_type] at hf
          · intro hc
            cases hc
        · intro hne
          rw [trimWorkerTrace]
          simp [List.filter_cons, isTerminalStatus, mkLogEvent_type]

/-- Witness for C7 at concrete outcomes: a url run returning `False` yields
one terminal "error" status event, and a successful trim run yields one
terminal "finished" status event. -/
theorem worker_terminal_status_witness :
    (urlWorkerTrace (.ok false)).countP isTerminalStatus = 1 ∧
    (urlWorkerTrace (.ok false)).filter isTerminalStatus =
      [.enqueueEvent ⟨"status", "ERROR", "error".data, "url"⟩] ∧
    (trimWorkerTrace (.ok ())).filter isTerminalStatus =
      [.enqueueEvent ⟨"status", "INFO", "finished".data, "trim"⟩] := by
  have h := worker_terminal_status (.ok false) (.ok ())
  exact ⟨h.1.1,
    h.1.2.2.2 (fun hc => absurd (Except.ok.inj hc) (by decide)),
    h.2.2.2.1.mpr rfl⟩

/-! ## C10 — log severity as a function of the message prefix -/

/-- The prefixes `_log_message_to_queue` recognizes on the lowercased
message. -/
def RECOGNIZED_PREFIXES : List String :=
  ["[error]", "✖", "❌", "[warn]", "▶", "✔", "🎉", "✅", "[info]", "[debug]",
   "[trim]"]

/-- C10: each call to `_log_message_to_queue` enqueues exactly one log event
carrying the given origin; the severity is a pure function of the lowercased
message's prefix — "[error]"/"✖"/"❌" give ERROR, "[warn]" gives WARN,
"[debug]" gives DEBUG, "[trim]" gives TRIM with the literal `"[TRIM]"` prefix
(and following whitespace) stripped from the event data when present — and
any message matching no recognized prefix gets INFO with its text intact. -/
theorem log_event_severity (msg origin : String) (queue : List Event) :
    (logMessageToQueue queue msg origin = queue ++ [mkLogEvent msg origin]) ∧
    (mkLogEvent msg origin).type = "log" ∧
    (mkLogEvent msg origin).origin = origin ∧
    (pyStartsWith "[error]".data (msg.data.map Char.toLower) = true →
      (mkLogEvent msg origin).level = "ERROR") ∧
    (pyStartsWith "✖".data (msg.data.map Char.toLower) = true →
      (mkLogEvent msg origin).level = "ERROR") ∧
    (pyStartsWith "❌".data (msg.data.map Char.toLower) = true →
      (mkLogEvent msg origin).level = "ERROR") ∧
    (pyStartsWith "[warn]".data (msg.data.map Char.toLower) = true →
      (mkLogEvent msg origin).level = "WARN") ∧
    (pyStartsWith "[debug]".data (msg.data.map Char.toLower) = true →
      (mkLogEvent msg origin).level = "DEBUG") ∧
    (pyStartsWith "[trim]".data (msg.data.map Char.toLower) = true →
      (mkLogEvent msg origin).level = "TRIM" ∧
      (pyStartsWith "[TRIM]".data msg.data = true →
        (mkLogEvent msg origin).data = (msg.data.drop 6).dropWhile pyIsSpace) ∧
      (pyStartsWith "[TRIM]".data msg.data = false →
        (mkLogEvent msg origin).data = msg.data)) ∧
    ((∀ p ∈ RECOGNIZED_PREFIXES,
        pyStartsWith p.data (msg.data.map Char.toLower) = false) →
      (mkLogEvent msg origin).level = "INFO" ∧
      (mkLogEvent msg origin).data = msg.data) := by
  refine ⟨rfl, mkLogEvent_type msg origin, mkLogEvent_origin msg origin,
    ?_, ?_, ?_, ?_, ?_, ?_, ?_⟩
  · intro h
    obtain ⟨t, hl⟩ := (pyStartsWith_iff _ _).mp h
    unfold mkLogEvent
    dsimp only
    rw [hl]
    simp [pyStartsWith]
  · intro h
    obtain ⟨t, hl⟩ := (pyStartsWith_iff _ _).mp h
    unfold mkLogEvent
    dsimp only
    rw [hl]
    simp [pyStartsWith]
  · intro h
    obtain ⟨t, hl⟩ := (pyStartsWith_iff _ _).mp h
    unfold mkLogEvent
    dsimp only
    rw [hl]
    simp [pyStartsWith]
  · intro h
    obtain ⟨t, hl⟩ := (pyStartsWith_iff _ _).mp h
    unfold mkLogEvent
    dsimp only
    rw [hl]
    simp [pyStartsWith]
  · intro h
    obtain ⟨t, hl⟩ := (pyStartsWith_iff _ _).mp h
    unfold mkLogEvent
    dsimp only
    rw [hl]
    simp [pyStartsWith]
  · intro h
    obtain ⟨t, hl⟩ := (pyStartsWith_iff _ _).mp h
    refine ⟨?_, ?_, ?_⟩
    · unfold mkLogEvent
      dsimp only
      rw [hl]
      simp [pyStartsWith]
    · intro h2
      unfold mkLogEvent
      dsimp only
      rw [hl]
      simp [pyStartsWith, h2]
    · intro h2
      unfold mkLogEvent
      dsimp only
      rw [hl]
      simp [pyStartsWith, h2]
  · intro hall
    have h1 := hall "[error]" (by decide)
    have h2 := hall "✖" (by decide)
    have h3 := hall "❌" (by decide)
    have h4 := hall "[warn]" (by decide)
    have h5 := hall "▶" (by decide)
    have h6 := hall "✔" (by decide)
    have h7 := hall "🎉" (by decide)
    have h8 := hall "✅" (by decide)
    have h9 := hall "[info]" (by decide)
    have h10 := hall "[debug]" (by decide)
    have h11 := hall "[trim]" (by decide)
    unfold mkLogEvent
    dsimp only
    simp [h1, h2, h3, h4, h5, h6, h7, h8, h9, h10, h11]

/-- Witness for C10: concrete messages hit each characteristic branch —
"[WARN] x" gets WARN, "[TRIM] y" gets TRIM with the prefix stripped, and a
plain message defaults to INFO; each call appends exactly one event. -/
theorem log_event_severity_witness :
    logMessageToQueue [] "[WARN] x" "url" = [mkLogEvent "[WARN] x" "url"] ∧
    (mkLogEvent "[WARN] x" "url").level = "WARN" ∧
    (mkLogEvent "[TRIM] y" "trim").level = "TRIM" ∧
    (mkLogEvent "[TRIM] y" "trim").data = "y".data ∧
    (mkLogEvent "hello" "url").level = "INFO" := by
  have hw := log_event_severity "[WARN] x" "url" []
  have ht := log_event_severity "[TRIM] y" "trim" []
  have hp := log_event_severity "hello" "url" []
  refine ⟨hw.1, hw.2.2.2.2.2.2.1 (by decide), ?_, ?_,
    (hp.2.2.2.2.2.2.2.2.2 (by decide)).1⟩
  · exact (ht.2.2.2.2.2.2.2.2.1 (by decide)).1
  · have hd := (ht.2.2.2.2.2.2.2.2.1 (by decide)).2.1 (by decide)
    rw [hd]
    decide

end VideoDownloader
